import Mathlib

/-!
# Sider upload automation: `sider_file_upload.js` and `sider_page_analysis.js`

A shallow embedding of the two browser scripts.  The live document is an
external collaborator, so it is a value of the model:

* a `World` is the heap of element objects together with the list of the
  connected elements in document order;
* an `Env` says what a `click()` and what the passage of time (the
  `setTimeout` waits) do to the world;
* `uploadFileToSider` returns the site it returned from and the sequence of
  DOM calls it made (`Event`), which is what the call-count properties of
  the specification are about.

JavaScript strings are Lean strings.  `toLowerCase` maps the ASCII letters and
keeps every other character: the keywords of the scripts are ASCII, and the only
characters outside ASCII whose lower case contains an ASCII letter are the
Kelvin sign (lower case `k`, a letter of no keyword) and the dotted capital I
(lower case `i` followed by a combining dot, which no keyword contains), so
every keyword test has the value it has with the Unicode mapping.  Letter case
outside ASCII is not modelled beyond the one pair named in `isUpperCaseOf`.
Console output is not part of the model, nor is the timer that removes the
strategy-4 highlight five seconds after the function has returned.
-/

set_option autoImplicit false

namespace Sider

/-! ## Strings -/

/-- The method `String.prototype.toLowerCase`: ASCII letters are lower-cased,
every other character is kept. -/
def toLowerCase (s : String) : String := ⟨s.data.map Char.toLower⟩

/-- Is `kw` a prefix of `s` (both as character lists)? -/
def startsWithChars : List Char → List Char → Bool
  | [], _ => true
  | _ :: _, [] => false
  | k :: ks, c :: cs => k == c && startsWithChars ks cs

/-- Does `kw` occur in `s` at some position (both as character lists)? -/
def includesChars (kw : List Char) : List Char → Bool
  | [] => startsWithChars kw []
  | c :: cs => startsWithChars kw (c :: cs) || includesChars kw cs

/-- The method `String.prototype.includes`: `includes s kw` is `s.includes(kw)`. -/
def includes (s kw : String) : Bool := includesChars kw.data s.data

/-- ASCII whitespace, the separators of the tokens of a `class` attribute. -/
def isSpace (c : Char) : Bool :=
  c == ' ' || c == '\t' || c == '\n' || c == '\x0c' || c == '\r'

/-- Splits a character list at whitespace; `cur` is the token being read, reversed. -/
def tokensAux : List Char → List Char → List String
  | [], cur => if cur.isEmpty then [] else [⟨cur.reverse⟩]
  | c :: cs, cur =>
    if isSpace c then
      (if cur.isEmpty then tokensAux cs [] else ⟨cur.reverse⟩ :: tokensAux cs [])
    else tokensAux cs (c :: cur)

/-- The class tokens of a `class` attribute value. -/
def classTokens (s : String) : List String := tokensAux s.data []

/-! ## Elements and the document -/

/-- A handle to an element object. -/
abbrev Handle := Nat

/-- An element object as the scripts read it. -/
structure Element where
  /-- The local name, lower case (`button`, `svg`, `input`, ...). -/
  tag : String
  /-- The element is an `SVGElement`: its `className` is an `SVGAnimatedString`,
  not a string. -/
  isSVG : Bool
  /-- The content attributes, as `getAttribute` and the attribute selectors see them. -/
  attrs : List (String × String)
  /-- The `type` property (`undefined` is `none`). -/
  type : Option String
  /-- The `disabled` property is truthy. -/
  disabled : Bool
  /-- The value of the test `offsetParent !== null`: the element has a layout box
  (the test is also true where the property is `undefined`, as on an `SVGElement`). -/
  offsetParent : Bool
  /-- The property `parentElement`. -/
  parentElement : Option Handle
  deriving DecidableEq, Repr, Inhabited

/-- The method `getAttribute`: the first attribute of that name, `none` for `null`. -/
def Element.getAttribute (e : Element) (name : String) : Option String :=
  (e.attrs.find? (fun a => a.1 == name)).map (fun a => a.2)

/-- The value of the property `className`. -/
inductive ClassName where
  /-- An `HTMLElement`: the `class` attribute as a string, `""` when absent. -/
  | str (s : String)
  /-- An `SVGElement`: an `SVGAnimatedString` object. -/
  | animated (baseVal : String)
  deriving DecidableEq, Repr

/-- The property `className`. -/
def Element.className (e : Element) : ClassName :=
  if e.isSVG then .animated ((e.getAttribute "class").getD "")
  else .str ((e.getAttribute "class").getD "")

/-- The live document: the element objects and, in document order, the handles
of those that are connected. -/
structure World where
  order : List Handle
  elem : Handle → Element

/-! ## Selectors -/

/-- One simple selector of a compound selector. -/
inductive Simple where
  /-- The selector `[name="value"]`. -/
  | attrEq (name value : String)
  /-- The selector `[name*="value"]`. -/
  | attrSub (name value : String)
  /-- The selector `.name`. -/
  | cls (name : String)
  deriving DecidableEq, Repr

/-- A compound selector: an optional type selector (`none` is `*` or nothing)
and simple selectors. -/
structure Compound where
  tag : Option String
  simples : List Simple
  deriving DecidableEq, Repr

/-- A selector list (the compounds separated by commas). -/
abbrev Selector := List Compound

/-- Does the element satisfy the simple selector? -/
def Simple.holds (e : Element) : Simple → Bool
  | .attrEq n v => e.getAttribute n == some v
  | .attrSub n v =>
    match e.getAttribute n with
    | some a => v != "" && includes a v
    | none => false
  | .cls c => (classTokens ((e.getAttribute "class").getD "")).contains c

/-- Does the element satisfy the compound selector? -/
def Compound.holds (e : Element) (c : Compound) : Bool :=
  (match c.tag with
   | some t => e.tag == t
   | none => true) && c.simples.all (fun s => s.holds e)

/-- The method `Element.matches`. -/
def Element.matchesSel (e : Element) (sel : Selector) : Bool :=
  sel.any (fun c => c.holds e)

/-- The method `document.querySelectorAll`: the connected elements that match,
in document order. -/
def querySelectorAll (w : World) (sel : Selector) : List Handle :=
  w.order.filter (fun h => (w.elem h).matchesSel sel)

/-- The method `document.querySelector`. -/
def querySelector (w : World) (sel : Selector) : Option Handle :=
  (querySelectorAll w sel).head?

/-! ## The environment and the observable calls -/

/-- What a call of `click()` did: the document afterwards and whether the call threw. -/
structure ClickOutcome where
  world : World
  threw : Bool

/-- The page around the script: the effect of `element.click()` and of letting
`ms` milliseconds pass (`await new Promise(resolve => setTimeout(resolve, ms))`). -/
structure Env where
  click : Handle → World → ClickOutcome
  wait : Nat → World → World

/-- A call the script makes on the document. -/
inductive Event where
  /-- A `querySelectorAll` call and the number of elements it returned, or a
  `querySelector` call and whether it returned an element (1) or `null` (0). -/
  | query (sel : Selector) (found : Nat)
  /-- A `click()` call on `target`; `element` is the target as it was at the call. -/
  | click (target : Handle) (element : Element)
  /-- An awaited timeout. -/
  | wait (ms : Nat)
  /-- The border and background of `target` are set (strategy 4). -/
  | highlight (target : Handle)
  deriving DecidableEq, Repr

/-- Is the event a `click()` call? -/
def Event.isClick : Event → Bool
  | .click _ _ => true
  | _ => false

/-- The `return` statement that ended a run of `uploadFileToSider`. -/
inductive Exit where
  /-- Strategy 1, `return true` after `fileInputs[0].click()`. -/
  | fileInput
  /-- Strategy 2, `return true` after the attachment button produced a file input. -/
  | attachButton
  /-- Strategy 3, `return true` after a clicked candidate produced a file input. -/
  | uploadIcon
  /-- Strategy 4, `return true` after the chat input was highlighted. -/
  | dragAndDrop
  /-- The `return false` after strategy 4 found no chat input. -/
  | notFound
  /-- The `return false` of the outer `catch`. -/
  | caught
  deriving DecidableEq, Repr

/-- A run of `uploadFileToSider`: where it returned and the calls it made, in order. -/
structure Run where
  exit : Exit
  events : List Event
  deriving DecidableEq, Repr

/-- The boolean the promise resolves to. -/
def Run.result (r : Run) : Bool :=
  match r.exit with
  | .fileInput | .attachButton | .uploadIcon | .dragAndDrop => true
  | .notFound | .caught => false

/-- The number of `click()` calls of a run. -/
def Run.clicks (r : Run) : Nat := r.events.countP Event.isClick

/-- The run `r` preceded by the calls `evs`. -/
def Run.after (evs : List Event) (r : Run) : Run := ⟨r.exit, evs ++ r.events⟩

/-! ## `sider_file_upload.js` -/

/-- The selector `input[type="file"]`. -/
def fileInputSelector : Selector := [⟨some "input", [.attrEq "type" "file"]⟩]

/-- The array `attachmentSelectors`. -/
def attachmentSelectors : List Selector :=
  [ [⟨none, [.attrSub "aria-label" "attach"]⟩],
    [⟨none, [.attrSub "aria-label" "upload"]⟩],
    [⟨none, [.attrSub "aria-label" "file"]⟩],
    [⟨none, [.attrSub "title" "attach"]⟩],
    [⟨none, [.attrSub "title" "upload"]⟩],
    [⟨none, [.attrSub "title" "file"]⟩],
    [⟨some "button", [.attrSub "class" "attach"]⟩],
    [⟨some "button", [.attrSub "class" "upload"]⟩],
    [⟨none, [.attrSub "class" "paperclip"]⟩],
    [⟨none, [.attrSub "class" "attachment"]⟩] ]

/-- The selector `button, [role="button"], svg, i`. -/
def clickableSelector : Selector :=
  [⟨some "button", []⟩, ⟨none, [.attrEq "role" "button"]⟩, ⟨some "svg", []⟩, ⟨some "i", []⟩]

/-- The selector `textarea, div[contenteditable="true"], input[type="text"]`. -/
def chatInputSelector : Selector :=
  [⟨some "textarea", []⟩, ⟨some "div", [.attrEq "contenteditable" "true"]⟩,
   ⟨some "input", [.attrEq "type" "text"]⟩]

/-- The array `uploadKeywords`. -/
def uploadKeywords : List String := ["upload", "attach", "file", "clip", "document"]

/-- The constant `hasUploadKeyword` of strategy 3, as a function of the four
lower-cased strings it is computed from. -/
def hasUploadKeyword (className ariaLabel title parentClass : String) : Bool :=
  uploadKeywords.any (fun keyword =>
    includes className keyword ||
    includes ariaLabel keyword ||
    includes title keyword ||
    includes parentClass keyword)

/-- The call `x.toLowerCase()` on a `className` value: a `TypeError` (`none`) when
the value is an `SVGAnimatedString`, which has no such method. -/
def ClassName.lower : ClassName → Option String
  | .str s => some (toLowerCase s)
  | .animated _ => none

/-- The expression `(element.getAttribute(name) || '').toLowerCase()`. -/
def attrLower (e : Element) (name : String) : String :=
  toLowerCase ((e.getAttribute name).getD "")

/-- The expression `(element.parentElement?.className || '').toLowerCase()`:
`''` without a parent, a `TypeError` (`none`) when the parent is an `SVGElement`. -/
def parentClassLower (w : World) (e : Element) : Option String :=
  match e.parentElement with
  | none => some (toLowerCase "")
  | some p => (w.elem p).className.lower

/-- The four strings of an iteration of the strategy-3 loop and the value of
`hasUploadKeyword`; `none` when computing the strings throws. -/
def uploadKeywordTest (w : World) (h : Handle) : Option Bool :=
  match (w.elem h).className.lower, parentClassLower w (w.elem h) with
  | some className, some parentClass =>
    some (hasUploadKeyword className (attrLower (w.elem h) "aria-label")
      (attrLower (w.elem h) "title") parentClass)
  | _, _ => none

/-- The nested loop of strategy 2 over the selectors still to try: the value of
`attachButton` after it and the queries made. -/
def findAttachButton (w : World) : List Selector → Option Handle × List Event
  | [] => (none, [])
  | selector :: rest =>
    let elements := querySelectorAll w selector
    match elements.find? (fun h => (w.elem h).offsetParent) with
    | some h => (some h, [.query selector elements.length])
    | none =>
      ((findAttachButton w rest).1,
        .query selector elements.length :: (findAttachButton w rest).2)

/-- Strategy 4 and the final `return false`. -/
def strategy4 (w : World) : Run :=
  match querySelector w chatInputSelector with
  | some chatInput =>
    ⟨.dragAndDrop, [.query chatInputSelector 1, .highlight chatInput]⟩
  | none => ⟨.notFound, [.query chatInputSelector 0]⟩

/-- The loop of strategy 3 over the elements of `allClickableElements` still to
visit, followed by the rest of the function. -/
def scanClickable (env : Env) : List Handle → World → Run
  | [], w => strategy4 w
  | element :: rest, w =>
    match uploadKeywordTest w element with
    | none => ⟨.caught, []⟩
    | some hasKeyword =>
      if hasKeyword && (w.elem element).offsetParent then
        let c := env.click element w
        if c.threw then
          (scanClickable env rest c.world).after [.click element (w.elem element)]
        else
          let w2 := env.wait 500 c.world
          let triggeredInputs := querySelectorAll w2 fileInputSelector
          if triggeredInputs.length > 0 then
            ⟨.uploadIcon, [.click element (w.elem element), .wait 500,
              .query fileInputSelector triggeredInputs.length]⟩
          else
            (scanClickable env rest w2).after [.click element (w.elem element), .wait 500,
              .query fileInputSelector triggeredInputs.length]
      else scanClickable env rest w

/-- Strategy 3 and what follows it. -/
def strategy3 (env : Env) (w : World) : Run :=
  let allClickableElements := querySelectorAll w clickableSelector
  (scanClickable env allClickableElements w).after
    [.query clickableSelector allClickableElements.length]

/-- Strategy 2 and what follows it. -/
def strategy2 (env : Env) (w : World) : Run :=
  match findAttachButton w attachmentSelectors with
  | (some attachButton, queries) =>
    let c := env.click attachButton w
    if c.threw then
      ⟨.caught, queries ++ [.click attachButton (w.elem attachButton)]⟩
    else
      let w2 := env.wait 1000 c.world
      let newFileInputs := querySelectorAll w2 fileInputSelector
      if newFileInputs.length > 0 then
        ⟨.attachButton, queries ++ [.click attachButton (w.elem attachButton), .wait 1000,
          .query fileInputSelector newFileInputs.length]⟩
      else
        (strategy3 env w2).after (queries ++ [.click attachButton (w.elem attachButton),
          .wait 1000, .query fileInputSelector newFileInputs.length])
  | (none, queries) => (strategy3 env w).after queries

/-- The function `uploadFileToSider`, run in the document `w`. -/
def uploadFileToSider (env : Env) (w : World) : Run :=
  let fileInputs := querySelectorAll w fileInputSelector
  match fileInputs with
  | first :: _ =>
    ⟨if (env.click first w).threw then .caught else .fileInput,
      [.query fileInputSelector fileInputs.length, .click first (w.elem first)]⟩
  | [] => (strategy2 env w).after [.query fileInputSelector 0]

/-! ## `sider_page_analysis.js` -/

/-- The array `fileUploadSelectors`. -/
def fileUploadSelectors : List Selector :=
  [ [⟨some "input", [.attrEq "type" "file"]⟩],
    [⟨none, [.attrSub "data-testid" "upload"]⟩],
    [⟨none, [.attrSub "data-testid" "file"]⟩],
    [⟨none, [.attrSub "aria-label" "upload"]⟩],
    [⟨none, [.attrSub "aria-label" "file"]⟩],
    [⟨none, [.cls "upload-button"]⟩],
    [⟨none, [.cls "file-upload"]⟩],
    [⟨some "button", [.attrSub "title" "upload"]⟩],
    [⟨some "button", [.attrSub "title" "file"]⟩],
    [⟨none, [.attrSub "class" "upload"]⟩],
    [⟨none, [.attrSub "class" "file"]⟩] ]

/-- The array `chatInputSelectors`. -/
def chatInputSelectors : List Selector :=
  [ [⟨some "textarea", [.attrSub "placeholder" "Message"]⟩],
    [⟨some "textarea", [.attrSub "placeholder" "Type"]⟩],
    [⟨some "textarea", [.attrSub "placeholder" "Ask"]⟩],
    [⟨some "div", [.attrEq "contenteditable" "true"]⟩],
    [⟨some "textarea", []⟩],
    [⟨some "input", [.attrEq "type" "text"]⟩] ]

/-- The selector
`svg, i, span[class*="icon"], [class*="attach"], [class*="clip"], [class*="upload"]`. -/
def iconSelector : Selector :=
  [⟨some "svg", []⟩, ⟨some "i", []⟩, ⟨some "span", [.attrSub "class" "icon"]⟩,
   ⟨none, [.attrSub "class" "attach"]⟩, ⟨none, [.attrSub "class" "clip"]⟩,
   ⟨none, [.attrSub "class" "upload"]⟩]

/-- The array `attachmentKeywords`. -/
def attachmentKeywords : List String :=
  ["attach", "clip", "upload", "file", "document", "paper"]

/-- The constant `hasAttachmentKeyword`, as a function of the three lower-cased
strings it is computed from. -/
def hasAttachmentKeyword (classNames ariaLabel title : String) : Bool :=
  attachmentKeywords.any (fun keyword =>
    includes classNames keyword || includes ariaLabel keyword || includes title keyword)

/-- The three strings of an iteration over `iconElements` and the value of
`hasAttachmentKeyword`; `none` when `className.toLowerCase()` throws. -/
def attachmentKeywordTest (w : World) (h : Handle) : Option Bool :=
  match (w.elem h).className.lower with
  | some classNames =>
    some (hasAttachmentKeyword classNames (attrLower (w.elem h) "aria-label")
      (attrLower (w.elem h) "title"))
  | none => none

/-- An entry of `foundElements`. -/
structure FoundElement where
  selector : Selector
  element : Handle
  tagName : String
  type : Option String
  className : ClassName
  ariaLabel : Option String
  title : Option String
  deriving DecidableEq, Repr

/-- An entry of `attachmentIcons`. -/
structure AttachmentIcon where
  index : Nat
  tagName : String
  className : ClassName
  ariaLabel : Option String
  title : Option String
  parentTag : Option String
  deriving DecidableEq, Repr

/-- The object `analyzeSiderPage` returns. -/
structure Report where
  fileUploadElements : List FoundElement
  attachmentIcons : List AttachmentIcon
  chatInput : Bool
  deriving DecidableEq, Repr

/-- Part 1: the entries one selector of `fileUploadSelectors` pushes. -/
def foundBySelector (w : World) (selector : Selector) : List FoundElement :=
  ((querySelectorAll w selector).filter
      (fun h => (w.elem h).offsetParent || (w.elem h).type == some "file")).map
    (fun h => ⟨selector, h, (w.elem h).tag, (w.elem h).type, (w.elem h).className,
      (w.elem h).getAttribute "aria-label", (w.elem h).getAttribute "title"⟩)

/-- Part 2: the nested loop that sets `chatInput`, over the selectors still to try. -/
def findChatInput (w : World) : List Selector → Option Handle
  | [] => none
  | selector :: rest =>
    match (querySelectorAll w selector).find?
        (fun h => (w.elem h).offsetParent && !(w.elem h).disabled) with
    | some h => some h
    | none => findChatInput w rest

/-- Part 3: the `forEach` over the elements of `iconElements` still to visit,
`index` being the index of the first of them; `none` when an iteration throws. -/
def collectIcons (w : World) : List Handle → Nat → Option (List AttachmentIcon)
  | [], _ => some []
  | element :: rest, index =>
    match attachmentKeywordTest w element with
    | none => none
    | some hasKeyword =>
      match collectIcons w rest (index + 1) with
      | none => none
      | some icons =>
        if hasKeyword && (w.elem element).offsetParent then
          some (⟨index, (w.elem element).tag, (w.elem element).className,
            (w.elem element).getAttribute "aria-label", (w.elem element).getAttribute "title",
            ((w.elem element).parentElement).map (fun p => (w.elem p).tag)⟩ :: icons)
        else some icons

/-- The function `analyzeSiderPage`, run in the document `w`; `none` when it throws. -/
def analyzeSiderPage (w : World) : Option Report :=
  let foundElements := fileUploadSelectors.flatMap (foundBySelector w)
  let chatInput := findChatInput w chatInputSelectors
  match collectIcons w (querySelectorAll w iconSelector) 0 with
  | none => none
  | some attachmentIcons => some ⟨foundElements, attachmentIcons, chatInput.isSome⟩

/-! ## Vocabulary of the properties -/

/-- The string `t` is `s` with the case of some of its ASCII letters changed. -/
def CaseVariant (s t : String) : Prop :=
  List.Forall₂ (fun a b => b = a ∨ b = a.toUpper ∨ b = a.toLower) s.data t.data

/-- The `className` value `b` is `a` with the case of some ASCII letters changed
(a string stays a string, an `SVGAnimatedString` stays one). -/
def ClassName.CaseVariant : ClassName → ClassName → Prop
  | .str s, .str t => Sider.CaseVariant s t
  | .animated s, .animated t => Sider.CaseVariant s t
  | _, _ => False

/-- The value of `element.parentElement?.className || ''` before it is
lower-cased: the empty string without a parent. -/
def parentClassName (w : World) (e : Element) : ClassName :=
  match e.parentElement with
  | none => .str ""
  | some p => (w.elem p).className

/-- The character `b` is the upper case of the letter `a` under
`String.prototype.toUpperCase`: for the ASCII letters, and for the dotless i
(U+0131), whose upper case is the ASCII `I`. -/
def isUpperCaseOf (a b : Char) : Bool :=
  (a.isLower && b == a.toUpper) || (a == 'ı' && b == 'I')

/-- The event is a query for `input[type="file"]` that found at least one element:
the observation by which a strategy succeeds. -/
def Event.foundFileInput (e : Event) : Prop :=
  ∃ n, 0 < n ∧ e = Event.query fileInputSelector n

/-- The event is one by which a strategy succeeds: a query that found a file
input, or the highlight of strategy 4. -/
def Event.success (e : Event) : Prop :=
  e.foundFileInput ∨ ∃ t, e = Event.highlight t

/-- Nothing follows an event satisfying `p` in the run `r`, and a run with such
an event returns from a site satisfying `Q`. -/
def StopsAt (p : Event → Prop) (Q : Exit → Prop) (r : Run) : Prop :=
  ∀ pre e post, r.events = pre ++ e :: post → p e → post = [] ∧ Q r.exit

/-! ## Example documents and pages -/

/-- A page on which clicks and waiting change nothing and no click throws. -/
def inertPage : Env := ⟨fun _ w => ⟨w, false⟩, fun _ w => w⟩

/-- A page on which `click()` throws on an `SVGElement` (which has no such
method) and nothing else happens. -/
def svgClickThrows : Env := ⟨fun h w => ⟨w, (w.elem h).isSVG⟩, fun _ w => w⟩

/-- A page on which every `click()` call throws and nothing else happens. -/
def throwingPage : Env := ⟨fun _ w => ⟨w, true⟩, fun _ w => w⟩

/-- A page on which every click inserts a file input (handle 9) at the end of the document. -/
def revealingPage : Env :=
  ⟨fun _ w => ⟨⟨w.order ++ [9], fun h =>
      if h = 9 then ⟨"input", false, [("type", "file")], some "file", false, false, none⟩
      else w.elem h⟩, false⟩,
   fun _ w => w⟩

/-- The document `<input type="file" style="display:none">`. -/
def hiddenFileInputWorld : World :=
  ⟨[0], fun _ => ⟨"input", false, [("type", "file")], some "file", false, false, none⟩⟩

/-- The document `<input type="file">`, the input laid out. -/
def visibleFileInputWorld : World :=
  ⟨[0], fun _ => ⟨"input", false, [("type", "file")], some "file", false, true, none⟩⟩

/-- The document `<button aria-label="attach file"></button><textarea></textarea>`. -/
def attachButtonWorld : World :=
  ⟨[0, 1], fun h => match h with
    | 0 => ⟨"button", false, [("aria-label", "attach file")], some "submit", false, true, none⟩
    | _ => ⟨"textarea", false, [], some "textarea", false, true, none⟩⟩

/-- The document `<svg class="logo"></svg><textarea></textarea>`. -/
def svgLogoWorld : World :=
  ⟨[0, 1], fun h => match h with
    | 0 => ⟨"svg", true, [("class", "logo")], none, false, true, none⟩
    | _ => ⟨"textarea", false, [], some "textarea", false, true, none⟩⟩

/-- The document `<svg class="paperclip"></svg><textarea></textarea>`. -/
def paperclipSvgWorld : World :=
  ⟨[0, 1], fun h => match h with
    | 0 => ⟨"svg", true, [("class", "paperclip")], none, false, true, none⟩
    | _ => ⟨"textarea", false, [], some "textarea", false, true, none⟩⟩

/-- The document
`<button aria-label="attach" disabled></button><input type="file" class="file" hidden>`. -/
def disabledButtonWorld : World :=
  ⟨[0, 1], fun h => match h with
    | 0 => ⟨"button", false, [("aria-label", "attach")], some "submit", true, true, none⟩
    | _ => ⟨"input", false, [("type", "file"), ("class", "file")], some "file", false, false,
        none⟩⟩

/-- The document `<button aria-label="attach" disabled></button>`. -/
def disabledButtonOnlyWorld : World :=
  ⟨[0], fun _ => ⟨"button", false, [("aria-label", "attach")], some "submit", true, true, none⟩⟩

/-- The document `<i class="fıle"></i>`, the second letter the dotless i (U+0131). -/
def dotlessFileWorld : World :=
  ⟨[0], fun _ => ⟨"i", false, [("class", "fıle")], none, false, true, none⟩⟩

/-- The document `<i class="FILE"></i>`. -/
def upperFileWorld : World :=
  ⟨[0], fun _ => ⟨"i", false, [("class", "FILE")], none, false, true, none⟩⟩

/-- The document `<div class="bar"><button class="btn" aria-label="upload file"></button></div>`. -/
def lowerLabelWorld : World :=
  ⟨[0, 1], fun h => match h with
    | 0 => ⟨"div", false, [("class", "bar")], none, false, true, none⟩
    | _ => ⟨"button", false, [("class", "btn"), ("aria-label", "upload file")], some "submit",
        false, true, some 0⟩⟩

/-- The document `<div class="Bar"><button class="BTN" aria-label="UPLOAD File"></button></div>`. -/
def upperLabelWorld : World :=
  ⟨[0, 1], fun h => match h with
    | 0 => ⟨"div", false, [("class", "Bar")], none, false, true, none⟩
    | _ => ⟨"button", false, [("class", "BTN"), ("aria-label", "UPLOAD File")], some "submit",
        false, true, some 0⟩⟩

/-- The document `<div class="toolbar"><i class="icon paper-plane"></i></div>`. -/
def paperPlaneWorld : World :=
  ⟨[0, 1], fun h => match h with
    | 0 => ⟨"div", false, [("class", "toolbar")], none, false, true, none⟩
    | _ => ⟨"i", false, [("class", "icon paper-plane")], none, false, true, some 0⟩⟩

/-- The document `<div class="upload-zone"><i class="icon plus"></i></div>`. -/
def uploadZoneWorld : World :=
  ⟨[0, 1], fun h => match h with
    | 0 => ⟨"div", false, [("class", "upload-zone")], none, false, true, none⟩
    | _ => ⟨"i", false, [("class", "icon plus")], none, false, true, some 0⟩⟩

/-- The document `<div class="toolbar"><i class="icon send" title="Send"></i></div>`. -/
def sendIconWorld : World :=
  ⟨[0, 1], fun h => match h with
    | 0 => ⟨"div", false, [("class", "toolbar")], none, false, true, none⟩
    | _ => ⟨"i", false, [("class", "icon send"), ("title", "Send")], none, false, true,
        some 0⟩⟩

/-- The document
`<button class="attachment"></button><div aria-label="attach a file"></div>`. -/
def docOrderWorld : World :=
  ⟨[0, 1], fun h => match h with
    | 0 => ⟨"button", false, [("class", "attachment")], some "submit", false, true, none⟩
    | _ => ⟨"div", false, [("aria-label", "attach a file")], none, false, true, none⟩⟩

/-! ## Strings: substrings and letter case -/

theorem startsWithChars_iff (k s : List Char) : startsWithChars k s = true ↔ k <+: s := by
  induction k generalizing s with
  | nil => simp [startsWithChars]
  | cons a k ih =>
    cases s with
    | nil => simp [startsWithChars]
    | cons c cs => simp [startsWithChars, ih, List.cons_prefix_cons]

theorem includesChars_iff (k s : List Char) : includesChars k s = true ↔ k <:+: s := by
  induction s with
  | nil => simp [includesChars, startsWithChars_iff]
  | cons c cs ih => simp [includesChars, startsWithChars_iff, ih, List.infix_cons_iff]

/-- The model of `includes` is the substring relation. -/
theorem includes_iff (s kw : String) : includes s kw = true ↔ kw.data <:+: s.data :=
  includesChars_iff kw.data s.data

theorem toLower_fix (c : Char) :
    c.toLower.toLower = c.toLower ∧ c.toUpper.toLower = c.toLower := by
  by_cases h : c.toNat < 128
  · obtain ⟨n, hn, rfl⟩ : ∃ n, n < 128 ∧ c = Char.ofNat n :=
      ⟨c.toNat, h, (Char.ofNat_toNat c).symm⟩
    interval_cases n <;> decide
  · have hl : c.toLower = c := by
      simp only [Char.toLower]
      rw [if_neg (by omega)]
    have hu : c.toUpper = c := by
      simp only [Char.toUpper]
      rw [if_neg (by omega)]
    rw [hu, hl]
    exact ⟨hl, rfl⟩

theorem map_toLower_forall₂ {l m : List Char}
    (h : List.Forall₂ (fun a b => b = a ∨ b = a.toUpper ∨ b = a.toLower) l m) :
    m.map Char.toLower = l.map Char.toLower := by
  induction h with
  | nil => rfl
  | cons hab _ ih =>
    simp only [List.map_cons, ih]
    rcases hab with rfl | rfl | rfl
    · rfl
    · rw [(toLower_fix _).2]
    · rw [(toLower_fix _).1]

theorem toLowerCase_caseVariant {s t : String} (h : CaseVariant s t) :
    toLowerCase t = toLowerCase s := by
  unfold toLowerCase
  congr 1
  exact map_toLower_forall₂ h

theorem hasUploadKeyword_eq_true_iff (c a t p : String) :
    hasUploadKeyword c a t p = true ↔
      ∃ kw ∈ uploadKeywords, kw.data <:+: c.data ∨ kw.data <:+: a.data ∨
        kw.data <:+: t.data ∨ kw.data <:+: p.data := by
  simp only [hasUploadKeyword, List.any_eq_true, Bool.or_eq_true, includes_iff, or_assoc]

theorem className_lower_caseVariant {a b : ClassName} (h : ClassName.CaseVariant a b) :
    b.lower = a.lower := by
  cases a with
  | str s =>
    cases b with
    | str t =>
      simp only [ClassName.lower, Option.some.injEq]
      exact toLowerCase_caseVariant h
    | animated t => exact absurd h (by simp [ClassName.CaseVariant])
  | animated s =>
    cases b with
    | str t => exact absurd h (by simp [ClassName.CaseVariant])
    | animated t => rfl

theorem parentClassLower_eq (w : World) (e : Element) :
    parentClassLower w e = (parentClassName w e).lower := by
  unfold parentClassLower parentClassName
  cases e.parentElement <;> rfl

theorem attrLower_caseVariant {e e' : Element} {name : String}
    (h : CaseVariant ((e.getAttribute name).getD "") ((e'.getAttribute name).getD "")) :
    attrLower e' name = attrLower e name :=
  toLowerCase_caseVariant h

/-- The value of the strategy-3 test on an element whose `className` and whose
parent's `className` are strings. -/
theorem uploadKeywordTest_of_str {w : World} {h : Handle} {c p : String}
    (hc : (w.elem h).className = ClassName.str c)
    (hp : parentClassName w (w.elem h) = ClassName.str p) :
    uploadKeywordTest w h = some (hasUploadKeyword (toLowerCase c)
      (attrLower (w.elem h) "aria-label") (attrLower (w.elem h) "title") (toLowerCase p)) := by
  unfold uploadKeywordTest
  rw [parentClassLower_eq, hc, hp]
  rfl

/-! ## Runs -/

@[simp]
theorem events_after (evs : List Event) (r : Run) :
    (r.after evs).events = evs ++ r.events := rfl

@[simp]
theorem exit_after (evs : List Event) (r : Run) : (r.after evs).exit = r.exit := rfl

theorem clicks_after (evs : List Event) (r : Run) :
    (r.after evs).clicks = evs.countP Event.isClick + r.clicks := by
  simp [Run.clicks, List.countP_append]

theorem stopsAt_after {p : Event → Prop} {Q : Exit → Prop} {r : Run} {evs : List Event}
    (hevs : ∀ e ∈ evs, ¬ p e) (hr : StopsAt p Q r) : StopsAt p Q (r.after evs) := by
  induction evs with
  | nil => exact hr
  | cons a evs ih =>
    intro pre e post heq he
    have ih' := ih (fun e he => hevs e (List.mem_cons_of_mem _ he))
    cases pre with
    | nil =>
      simp only [events_after, List.cons_append, List.nil_append, List.cons.injEq] at heq
      exact absurd he (heq.1 ▸ hevs a (List.mem_cons_self _ _))
    | cons b pre =>
      simp only [events_after, List.cons_append, List.cons.injEq] at heq
      exact ih' pre e post (by simpa using heq.2) he

theorem stopsAt_last {p : Event → Prop} {Q : Exit → Prop} (x : Exit) (evs : List Event)
    (last : Event) (hevs : ∀ e ∈ evs, ¬ p e) (hx : Q x) : StopsAt p Q ⟨x, evs ++ [last]⟩ := by
  have h1 : StopsAt p Q ⟨x, [last]⟩ := by
    intro pre e post heq _
    cases pre with
    | nil =>
      simp only [List.nil_append, List.cons.injEq] at heq
      exact ⟨heq.2.symm, hx⟩
    | cons b pre =>
      simp at heq
  exact stopsAt_after hevs h1

theorem stopsAt_none {p : Event → Prop} {Q : Exit → Prop} (x : Exit) (evs : List Event)
    (hevs : ∀ e ∈ evs, ¬ p e) : StopsAt p Q ⟨x, evs⟩ := by
  intro pre e post heq he
  have : e ∈ evs := by
    simp only at heq
    rw [heq]
    simp
  exact absurd he (hevs e this)

/-! ## Strategy 2: the choice of `attachButton` -/

theorem find_visible {w : World} {l : List Handle} {h : Handle}
    (hf : l.find? (fun x => (w.elem x).offsetParent) = some h) :
    (w.elem h).offsetParent = true :=
  List.find?_some (p := fun x => (w.elem x).offsetParent) hf

theorem findAttachButton_events (w : World) (sels : List Selector) :
    ∀ e ∈ (findAttachButton w sels).2, ∃ sel ∈ sels, ∃ n, e = Event.query sel n := by
  induction sels with
  | nil => simp [findAttachButton]
  | cons sel rest ih =>
    intro e he
    simp only [findAttachButton] at he
    split at he
    · simp only [List.mem_singleton] at he
      exact ⟨sel, List.mem_cons_self _ _, _, he⟩
    · simp only [List.mem_cons] at he
      rcases he with he | he
      · exact ⟨sel, List.mem_cons_self _ _, _, he⟩
      · obtain ⟨s, hs, n, hn⟩ := ih e he
        exact ⟨s, List.mem_cons_of_mem _ hs, n, hn⟩

theorem findAttachButton_none (w : World) (sels : List Selector) :
    (findAttachButton w sels).1 = none ↔
      ∀ sel ∈ sels, ∀ h ∈ querySelectorAll w sel, (w.elem h).offsetParent = false := by
  induction sels with
  | nil => simp [findAttachButton]
  | cons sel rest ih =>
    simp only [findAttachButton]
    split
    · next h hfind =>
      simp only [List.mem_cons, forall_eq_or_imp]
      constructor
      · intro hc
        simp at hc
      · intro hall
        have hv : (w.elem h).offsetParent = true := find_visible hfind
        have hmem := List.mem_of_find?_eq_some hfind
        rw [hall.1 h hmem] at hv
        exact absurd hv (by decide)
    · next hfind =>
      simp only [ih, List.mem_cons, forall_eq_or_imp]
      constructor
      · intro hr
        refine ⟨?_, hr⟩
        intro h hh
        have := List.find?_eq_none.1 hfind h hh
        simpa using this
      · exact fun hr => hr.2

theorem findAttachButton_some (w : World) (sels : List Selector) (h : Handle)
    (hf : (findAttachButton w sels).1 = some h) :
    ∃ pre sel post, sels = pre ++ sel :: post ∧
      (∀ s ∈ pre, ∀ x ∈ querySelectorAll w s, (w.elem x).offsetParent = false) ∧
      (querySelectorAll w sel).find? (fun x => (w.elem x).offsetParent) = some h := by
  induction sels with
  | nil => simp [findAttachButton] at hf
  | cons sel rest ih =>
    simp only [findAttachButton] at hf
    split at hf
    · next x hfind =>
      simp only [Option.some.injEq] at hf
      subst hf
      exact ⟨[], sel, rest, rfl, by simp, hfind⟩
    · next hfind =>
      obtain ⟨pre, s, post, hsplit, hpre, hs⟩ := ih hf
      refine ⟨sel :: pre, s, post, by simp [hsplit], ?_, hs⟩
      intro s' hs' x hx
      rcases List.mem_cons.1 hs' with rfl | hs'
      · have := List.find?_eq_none.1 hfind x hx
        simpa using this
      · exact hpre s' hs' x hx

theorem findAttachButton_visible (w : World) (sels : List Selector) (h : Handle)
    (hf : (findAttachButton w sels).1 = some h) : (w.elem h).offsetParent = true := by
  obtain ⟨_, _, _, _, _, hs⟩ := findAttachButton_some w sels h hf
  exact find_visible hs

/-! ## Strategy 4 -/

theorem strategy4_events (w : World) :
    ∀ e ∈ (strategy4 w).events,
      (∃ n, e = Event.query chatInputSelector n) ∨ ∃ t, e = Event.highlight t := by
  intro e he
  unfold strategy4 at he
  split at he
  · simp only [List.mem_cons, List.mem_singleton, List.not_mem_nil, or_false] at he
    rcases he with he | he
    · exact Or.inl ⟨_, he⟩
    · exact Or.inr ⟨_, he⟩
  · simp only [List.mem_singleton] at he
    exact Or.inl ⟨_, he⟩

theorem strategy4_clicks (w : World) : (strategy4 w).clicks = 0 := by
  unfold strategy4
  split <;> rfl

theorem strategy4_exit (w : World) :
    (strategy4 w).exit = if (querySelector w chatInputSelector).isSome then Exit.dragAndDrop
      else Exit.notFound := by
  unfold strategy4
  split <;> simp_all

theorem chatInputSelector_ne_fileInputSelector : chatInputSelector ≠ fileInputSelector := by
  decide

theorem clickableSelector_ne_fileInputSelector : clickableSelector ≠ fileInputSelector := by
  decide

theorem chatInputSelector_ne_clickableSelector : chatInputSelector ≠ clickableSelector := by
  decide

theorem fileInputSelector_not_mem_attachmentSelectors :
    fileInputSelector ∉ attachmentSelectors := by
  decide

theorem clickableSelector_not_mem_attachmentSelectors :
    clickableSelector ∉ attachmentSelectors := by
  decide

theorem not_success_click (h : Handle) (e : Element) : ¬ (Event.click h e).success := by
  rintro (⟨n, _, hn⟩ | ⟨t, ht⟩)
  · simp at hn
  · simp at ht

theorem not_success_wait (ms : Nat) : ¬ (Event.wait ms).success := by
  rintro (⟨n, _, hn⟩ | ⟨t, ht⟩)
  · simp at hn
  · simp at ht

theorem not_success_query {sel : Selector} {n : Nat} (h : sel ≠ fileInputSelector ∨ n = 0) :
    ¬ (Event.query sel n).success := by
  rintro (⟨m, hm, heq⟩ | ⟨t, ht⟩)
  · simp only [Event.query.injEq] at heq
    rcases h with h | h
    · exact h heq.1
    · omega
  · simp at ht

theorem strategy4_stopsAt (Q : Exit → Prop) (hQ4 : Q Exit.dragAndDrop) (w : World) :
    StopsAt Event.success Q (strategy4 w) := by
  unfold strategy4
  split
  · refine stopsAt_last _ [_] _ ?_ hQ4
    intro e he
    simp only [List.mem_singleton] at he
    subst he
    exact not_success_query (Or.inl chatInputSelector_ne_fileInputSelector)
  · apply stopsAt_none
    intro e he
    simp only [List.mem_singleton] at he
    subst he
    exact not_success_query (Or.inl chatInputSelector_ne_fileInputSelector)

/-! ## Strategy 3: the scan -/

theorem scanClickable_click_visible (env : Env) (hs : List Handle) (w : World) :
    ∀ h e, Event.click h e ∈ (scanClickable env hs w).events → e.offsetParent = true := by
  induction hs generalizing w with
  | nil =>
    intro h e he
    rcases strategy4_events w _ he with ⟨m, hm⟩ | ⟨t, ht⟩
    · simp at hm
    · simp at ht
  | cons x rest ih =>
    intro h e he
    simp only [scanClickable] at he
    split at he
    · simp at he
    · next hasKeyword _ =>
      split at he
      · next hcond =>
        simp only [Bool.and_eq_true] at hcond
        split at he
        · simp only [events_after, List.singleton_append, List.mem_cons, Event.click.injEq] at he
          rcases he with ⟨_, rfl⟩ | he
          · exact hcond.2
          · exact ih _ h e he
        · split at he
          · simp only [List.mem_cons, Event.click.injEq, List.mem_singleton, reduceCtorEq,
              or_false, List.not_mem_nil] at he
            rw [he.2]
            exact hcond.2
          · simp only [events_after, List.cons_append, List.nil_append, List.mem_cons,
              Event.click.injEq, reduceCtorEq, false_or] at he
            rcases he with ⟨_, rfl⟩ | he
            · exact hcond.2
            · exact ih _ h e he
      · exact ih _ h e he

theorem scanClickable_stopsAt (Q : Exit → Prop) (hQ : Q Exit.uploadIcon)
    (hQ4 : Q Exit.dragAndDrop) (env : Env)
    (hs : List Handle) (w : World) :
    StopsAt Event.success Q (scanClickable env hs w) := by
  induction hs generalizing w with
  | nil => exact strategy4_stopsAt Q hQ4 w
  | cons x rest ih =>
    simp only [scanClickable]
    split
    · exact stopsAt_none _ _ (by simp)
    · split
      · split
        · refine stopsAt_after ?_ (ih _)
          intro e he
          simp only [List.mem_singleton] at he
          subst he
          exact not_success_click _ _
        · split
          · refine stopsAt_last _ [_, _] _ ?_ hQ
            intro e he
            simp only [List.mem_cons, List.mem_singleton, List.not_mem_nil, or_false] at he
            rcases he with rfl | rfl
            · exact not_success_click _ _
            · exact not_success_wait _
          · next hlen =>
            refine stopsAt_after ?_ (ih _)
            intro e he
            simp only [List.mem_cons, List.mem_singleton, List.not_mem_nil, or_false] at he
            rcases he with rfl | rfl | rfl
            · exact not_success_click _ _
            · exact not_success_wait _
            · exact not_success_query (Or.inr (by omega))
      · exact ih _

theorem scanClickable_clicks (env : Env) (hs : List Handle) (w : World) :
    (scanClickable env hs w).clicks ≤ hs.length := by
  induction hs generalizing w with
  | nil => simp [scanClickable, strategy4_clicks]
  | cons x rest ih =>
    simp only [scanClickable]
    split
    · simp [Run.clicks]
    · split
      · split
        · rw [clicks_after]
          have := ih (env.click x w).world
          simp only [List.length_cons]
          simp [Event.isClick]
          omega
        · split
          · simp [Run.clicks, Event.isClick]
          · rw [clicks_after]
            have := ih (env.wait 500 (env.click x w).world)
            simp [Event.isClick]
            omega
      · have := ih w
        simp only [List.length_cons]
        omega

theorem scanClickable_no_scan_query (env : Env) (hs : List Handle) (w : World) (n : Nat) :
    Event.query clickableSelector n ∉ (scanClickable env hs w).events := by
  induction hs generalizing w with
  | nil =>
    intro he
    rcases strategy4_events w _ he with ⟨m, hm⟩ | ⟨t, ht⟩
    · simp only [Event.query.injEq] at hm
      exact chatInputSelector_ne_clickableSelector hm.1.symm
    · simp at ht
  | cons x rest ih =>
    simp only [scanClickable]
    split
    · simp
    · split
      · split
        · simp only [events_after, List.singleton_append, List.mem_cons, reduceCtorEq, false_or]
          exact ih _
        · split
          · simp only [List.mem_cons, reduceCtorEq, Event.query.injEq, List.mem_singleton,
              false_or, List.not_mem_nil, or_false, not_and]
            intro hc
            exact absurd hc clickableSelector_ne_fileInputSelector
          · simp only [events_after, List.cons_append, List.nil_append, List.mem_cons,
              reduceCtorEq, Event.query.injEq, false_or, not_or, not_and]
            exact ⟨fun hc => absurd hc clickableSelector_ne_fileInputSelector, ih _⟩
      · exact ih _

theorem scanClickable_exit (env : Env) (hs : List Handle) (w : World) :
    (scanClickable env hs w).exit ≠ Exit.fileInput ∧
      (scanClickable env hs w).exit ≠ Exit.attachButton := by
  induction hs generalizing w with
  | nil =>
    rw [scanClickable, strategy4_exit]
    split <;> simp
  | cons x rest ih =>
    simp only [scanClickable]
    split
    · simp
    · split
      · split
        · exact ih _
        · split
          · simp
          · exact ih _
      · exact ih _

/-! ## Strategy 3 -/

theorem strategy3_click_visible (env : Env) (w : World) :
    ∀ h e, Event.click h e ∈ (strategy3 env w).events → e.offsetParent = true := by
  intro h e he
  simp only [strategy3, events_after, List.singleton_append, List.mem_cons, reduceCtorEq,
    false_or] at he
  exact scanClickable_click_visible env _ w h e he

theorem strategy3_stopsAt (Q : Exit → Prop) (hQ : Q Exit.uploadIcon)
    (hQ4 : Q Exit.dragAndDrop) (env : Env) (w : World) :
    StopsAt Event.success Q (strategy3 env w) := by
  refine stopsAt_after ?_ (scanClickable_stopsAt Q hQ hQ4 env _ w)
  intro e he
  simp only [List.mem_singleton] at he
  subst he
  exact not_success_query (Or.inl clickableSelector_ne_fileInputSelector)

theorem strategy3_clicks (env : Env) (w : World) :
    (strategy3 env w).clicks ≤ (querySelectorAll w clickableSelector).length := by
  rw [strategy3, clicks_after]
  have := scanClickable_clicks env (querySelectorAll w clickableSelector) w
  simpa [Event.isClick] using this

theorem strategy3_scan_query (env : Env) (w : World) (n : Nat) :
    Event.query clickableSelector n ∈ (strategy3 env w).events ↔
      n = (querySelectorAll w clickableSelector).length := by
  simp only [strategy3, events_after, List.singleton_append, List.mem_cons, Event.query.injEq,
    true_and, scanClickable_no_scan_query, or_false]

theorem strategy3_exit (env : Env) (w : World) :
    (strategy3 env w).exit ≠ Exit.fileInput ∧ (strategy3 env w).exit ≠ Exit.attachButton :=
  scanClickable_exit env _ w

/-! ## Strategy 2 -/

theorem findAttachButton_no_click (w : World) (sels : List Selector) :
    (findAttachButton w sels).2.countP Event.isClick = 0 := by
  rw [List.countP_eq_zero]
  intro e he
  obtain ⟨_, _, _, rfl⟩ := findAttachButton_events w sels e he
  simp [Event.isClick]

theorem findAttachButton_not_success (w : World) :
    ∀ e ∈ (findAttachButton w attachmentSelectors).2, ¬ e.success := by
  intro e he
  obtain ⟨sel, hsel, n, rfl⟩ := findAttachButton_events w _ e he
  refine not_success_query (Or.inl ?_)
  rintro rfl
  exact fileInputSelector_not_mem_attachmentSelectors hsel

theorem findAttachButton_no_scan_query (w : World) (n : Nat) :
    Event.query clickableSelector n ∉ (findAttachButton w attachmentSelectors).2 := by
  intro he
  obtain ⟨sel, hsel, m, hm⟩ := findAttachButton_events w _ _ he
  simp only [Event.query.injEq] at hm
  exact clickableSelector_not_mem_attachmentSelectors (hm.1 ▸ hsel)

/-- The four ways through strategy 2. -/
theorem strategy2_cases (env : Env) (w : World) :
    (∃ b, (findAttachButton w attachmentSelectors).1 = some b ∧
      (env.click b w).threw = true ∧
      strategy2 env w = ⟨Exit.caught,
        (findAttachButton w attachmentSelectors).2 ++ [Event.click b (w.elem b)]⟩) ∨
    (∃ b n, (findAttachButton w attachmentSelectors).1 = some b ∧
      (env.click b w).threw = false ∧ 0 < n ∧
      n = (querySelectorAll (env.wait 1000 (env.click b w).world) fileInputSelector).length ∧
      strategy2 env w = ⟨Exit.attachButton,
        ((findAttachButton w attachmentSelectors).2 ++ [Event.click b (w.elem b)]) ++
          [Event.wait 1000] ++ [Event.query fileInputSelector n]⟩) ∨
    (∃ b, (findAttachButton w attachmentSelectors).1 = some b ∧
      (env.click b w).threw = false ∧
      querySelectorAll (env.wait 1000 (env.click b w).world) fileInputSelector = [] ∧
      strategy2 env w = (strategy3 env (env.wait 1000 (env.click b w).world)).after
        ((findAttachButton w attachmentSelectors).2 ++
          [Event.click b (w.elem b), Event.wait 1000, Event.query fileInputSelector 0])) ∨
    ((findAttachButton w attachmentSelectors).1 = none ∧
      strategy2 env w = (strategy3 env w).after (findAttachButton w attachmentSelectors).2) := by
  unfold strategy2
  split
  · next b qs hfind =>
    rw [hfind]
    dsimp only
    by_cases ht : (env.click b w).threw = true
    · left
      exact ⟨b, rfl, ht, by rw [if_pos ht]⟩
    · right
      rw [if_neg ht]
      simp only [Bool.not_eq_true] at ht
      by_cases hn :
          (querySelectorAll (env.wait 1000 (env.click b w).world) fileInputSelector).length > 0
      · left
        refine ⟨b, _, rfl, ht, hn, rfl, ?_⟩
        rw [if_pos hn]
        simp
      · right
        left
        have h0 : querySelectorAll (env.wait 1000 (env.click b w).world) fileInputSelector
            = [] := by
          apply List.eq_nil_of_length_eq_zero
          omega
        refine ⟨b, rfl, ht, h0, ?_⟩
        rw [if_neg hn, h0]
        rfl
  · next qs hfind =>
    rw [hfind]
    exact Or.inr (Or.inr (Or.inr ⟨rfl, rfl⟩))

theorem strategy2_click_visible (env : Env) (w : World) :
    ∀ h e, Event.click h e ∈ (strategy2 env w).events → e.offsetParent = true := by
  intro h e he
  have hq : Event.click h e ∉ (findAttachButton w attachmentSelectors).2 := by
    intro hc
    obtain ⟨_, _, _, hx⟩ := findAttachButton_events w _ _ hc
    simp at hx
  rcases strategy2_cases env w with ⟨b, hb, _, heq⟩ | ⟨b, n, hb, _, _, _, heq⟩ |
    ⟨b, hb, _, _, heq⟩ | ⟨_, heq⟩
  · rw [heq] at he
    simp only [List.mem_append, List.mem_singleton, Event.click.injEq] at he
    rcases he with he | ⟨_, rfl⟩
    · exact absurd he hq
    · exact findAttachButton_visible w _ b hb
  · rw [heq] at he
    simp only [List.mem_append, List.mem_singleton, Event.click.injEq, reduceCtorEq,
      or_false] at he
    rcases he with he | ⟨_, rfl⟩
    · exact absurd he hq
    · exact findAttachButton_visible w _ b hb
  · rw [heq] at he
    simp only [events_after, List.mem_append, List.mem_cons, Event.click.injEq,
      reduceCtorEq, List.not_mem_nil, or_false, false_or] at he
    rcases he with (he | ⟨_, rfl⟩) | he
    · exact absurd he hq
    · exact findAttachButton_visible w _ b hb
    · exact strategy3_click_visible env _ h e he
  · rw [heq] at he
    simp only [events_after, List.mem_append] at he
    rcases he with he | he
    · exact absurd he hq
    · exact strategy3_click_visible env _ h e he

theorem strategy2_stopsAt (Q : Exit → Prop) (hQ2 : Q Exit.attachButton)
    (hQ3 : Q Exit.uploadIcon) (hQ4 : Q Exit.dragAndDrop) (env : Env) (w : World) :
    StopsAt Event.success Q (strategy2 env w) := by
  have hqs := findAttachButton_not_success w
  rcases strategy2_cases env w with ⟨b, hb, _, heq⟩ | ⟨b, n, hb, _, _, _, heq⟩ |
    ⟨b, hb, _, _, heq⟩ | ⟨_, heq⟩
  · rw [heq]
    apply stopsAt_none
    intro e he
    simp only [List.mem_append, List.mem_singleton] at he
    rcases he with he | rfl
    · exact hqs e he
    · exact not_success_click _ _
  · rw [heq]
    apply stopsAt_last _ _ _ _ hQ2
    intro e he
    simp only [List.mem_append, List.mem_singleton] at he
    rcases he with (he | rfl) | rfl
    · exact hqs e he
    · exact not_success_click _ _
    · exact not_success_wait _
  · rw [heq]
    refine stopsAt_after ?_ (strategy3_stopsAt Q hQ3 hQ4 env _)
    intro e he
    simp only [List.mem_append, List.mem_cons, List.not_mem_nil, or_false] at he
    rcases he with he | rfl | rfl | rfl
    · exact hqs e he
    · exact not_success_click _ _
    · exact not_success_wait _
    · exact not_success_query (Or.inr rfl)
  · rw [heq]
    exact stopsAt_after hqs (strategy3_stopsAt Q hQ3 hQ4 env _)

theorem strategy2_clicks (env : Env) (w : World) :
    ((strategy2 env w).exit = Exit.attachButton → (strategy2 env w).clicks = 1) ∧
    (strategy2 env w).exit ≠ Exit.fileInput ∧
    (∀ n, Event.query clickableSelector n ∈ (strategy2 env w).events →
      (strategy2 env w).clicks ≤ 1 + n) ∧
    ((∀ n, Event.query clickableSelector n ∉ (strategy2 env w).events) →
      (strategy2 env w).clicks ≤ 1) := by
  have hqc := findAttachButton_no_click w attachmentSelectors
  have hqs := findAttachButton_no_scan_query w
  rcases strategy2_cases env w with ⟨b, hb, _, heq⟩ | ⟨b, n, hb, _, _, _, heq⟩ |
    ⟨b, hb, _, _, heq⟩ | ⟨_, heq⟩
  · rw [heq]
    have hc : (⟨Exit.caught, (findAttachButton w attachmentSelectors).2 ++
        [Event.click b (w.elem b)]⟩ : Run).clicks = 1 := by
      simp [Run.clicks, List.countP_append, hqc, Event.isClick]
    rw [hc]
    simp
  · rw [heq]
    have hc : (⟨Exit.attachButton, ((findAttachButton w attachmentSelectors).2 ++
        [Event.click b (w.elem b)]) ++ [Event.wait 1000] ++
        [Event.query fileInputSelector n]⟩ : Run).clicks = 1 := by
      simp [Run.clicks, List.countP_append, hqc, Event.isClick]
    rw [hc]
    simp
  · rw [heq]
    have h3 := strategy3_clicks env (env.wait 1000 (env.click b w).world)
    have hx := strategy3_exit env (env.wait 1000 (env.click b w).world)
    have hc : ((strategy3 env (env.wait 1000 (env.click b w).world)).after
        ((findAttachButton w attachmentSelectors).2 ++
          [Event.click b (w.elem b), Event.wait 1000, Event.query fileInputSelector 0])).clicks
        = 1 + (strategy3 env (env.wait 1000 (env.click b w).world)).clicks := by
      rw [clicks_after]
      simp [List.countP_append, hqc, Event.isClick, List.countP_cons]
    rw [hc]
    refine ⟨fun hc => absurd hc hx.2, hx.1, ?_, ?_⟩
    · intro n hn
      simp only [events_after, List.mem_append, List.mem_cons, reduceCtorEq, Event.query.injEq,
        List.not_mem_nil, or_false, false_or, hqs, strategy3_scan_query] at hn
      rcases hn with hn | hn
      · exact absurd hn.1 clickableSelector_ne_fileInputSelector
      · omega
    · intro hno
      exact absurd (by
        simp only [events_after, List.mem_append]
        exact Or.inr ((strategy3_scan_query env _ _).2 rfl)) (hno _)
  · rw [heq]
    have h3 := strategy3_clicks env w
    have hx := strategy3_exit env w
    have hc : ((strategy3 env w).after (findAttachButton w attachmentSelectors).2).clicks
        = (strategy3 env w).clicks := by
      rw [clicks_after, hqc]
      simp
    rw [hc]
    refine ⟨fun hc => absurd hc hx.2, hx.1, ?_, ?_⟩
    · intro n hn
      simp only [events_after, List.mem_append, hqs, false_or, strategy3_scan_query] at hn
      omega
    · intro hno
      exact absurd (by
        simp only [events_after, List.mem_append]
        exact Or.inr ((strategy3_scan_query env _ _).2 rfl)) (hno _)

/-! ## The whole function -/

theorem uploadFileToSider_of_fileInput (env : Env) (w : World) (first : Handle)
    (rest : List Handle) (h : querySelectorAll w fileInputSelector = first :: rest) :
    uploadFileToSider env w =
      ⟨if (env.click first w).threw then Exit.caught else Exit.fileInput,
        [Event.query fileInputSelector (rest.length + 1), Event.click first (w.elem first)]⟩ := by
  unfold uploadFileToSider
  simp only [h, List.length_cons]

theorem uploadFileToSider_of_no_fileInput (env : Env) (w : World)
    (h : querySelectorAll w fileInputSelector = []) :
    uploadFileToSider env w = (strategy2 env w).after [Event.query fileInputSelector 0] := by
  unfold uploadFileToSider
  simp only [h]

/-! ## `analyzeSiderPage` -/

theorem foundBySelector_visible_or_file (w : World) (sel : Selector) :
    ∀ f ∈ foundBySelector w sel,
      f.element ∈ querySelectorAll w sel ∧
      ((w.elem f.element).offsetParent = true ∨ (w.elem f.element).type = some "file") := by
  intro f hf
  simp only [foundBySelector, List.mem_map, List.mem_filter, Bool.or_eq_true, beq_iff_eq] at hf
  obtain ⟨h, ⟨hmem, hv⟩, rfl⟩ := hf
  exact ⟨hmem, hv⟩

theorem collectIcons_visible (w : World) (hs : List Handle) (index : Nat)
    (icons : List AttachmentIcon) (hc : collectIcons w hs index = some icons) :
    ∀ icon ∈ icons, ∃ h, index ≤ icon.index ∧ hs[icon.index - index]? = some h ∧
      attachmentKeywordTest w h = some true ∧ (w.elem h).offsetParent = true := by
  induction hs generalizing index icons with
  | nil =>
    simp only [collectIcons, Option.some.injEq] at hc
    subst hc
    simp
  | cons x rest ih =>
    simp only [collectIcons] at hc
    split at hc
    · simp at hc
    · next hasKeyword hkw =>
      split at hc
      · simp at hc
      · next icons' hrest =>
        have ih' := ih (index + 1) icons' hrest
        have htail : ∀ icon ∈ icons', ∃ h, index ≤ icon.index ∧
            (x :: rest)[icon.index - index]? = some h ∧
            attachmentKeywordTest w h = some true ∧ (w.elem h).offsetParent = true := by
          intro icon hi
          obtain ⟨h, hle, hget, hk, hv⟩ := ih' icon hi
          refine ⟨h, by omega, ?_, hk, hv⟩
          have : icon.index - index = (icon.index - (index + 1)) + 1 := by omega
          rw [this, List.getElem?_cons_succ]
          exact hget
        split at hc
        · next hcond =>
          simp only [Bool.and_eq_true] at hcond
          simp only [Option.some.injEq] at hc
          subst hc
          intro icon hi
          rcases List.mem_cons.1 hi with rfl | hi
          · refine ⟨x, le_refl _, by simp, ?_, hcond.2⟩
            rw [hkw, hcond.1]
          · exact htail icon hi
        · simp only [Option.some.injEq] at hc
          subst hc
          exact htail

/-! ## The claims -/

/-- C1 (counterexample).  In the document whose only file input is hidden,
strategy 1 clicks that hidden input and the function returns `true` from
strategy 1: the run is the query and the click, strategy 2 is not reached. -/
theorem strategy1_clicks_hidden_file_input :
    (∀ h ∈ querySelectorAll hiddenFileInputWorld fileInputSelector,
        (hiddenFileInputWorld.elem h).offsetParent = false) ∧
    uploadFileToSider inertPage hiddenFileInputWorld =
      ⟨Exit.fileInput, [Event.query fileInputSelector 1,
        Event.click 0 ⟨"input", false, [("type", "file")], some "file", false, false, none⟩]⟩ ∧
    (uploadFileToSider inertPage hiddenFileInputWorld).result = true := by
  decide

/-- C1 (amended).  Strategy 1 does not test visibility: when the document has a
file input, hidden or not, the run is the query followed by a click on the
first one, and it returns `true` unless that click throws.  When the document
has no file input on entry, every element clicked (strategies 2 and 3) has a
layout box at the moment of its click. -/
theorem clicks_outside_strategy1_are_visible (env : Env) (w : World) :
    (∀ first rest, querySelectorAll w fileInputSelector = first :: rest →
      uploadFileToSider env w =
        ⟨if (env.click first w).threw then Exit.caught else Exit.fileInput,
          [Event.query fileInputSelector (rest.length + 1),
            Event.click first (w.elem first)]⟩) ∧
    (querySelectorAll w fileInputSelector = [] →
      ∀ h e, Event.click h e ∈ (uploadFileToSider env w).events → e.offsetParent = true) := by
  refine ⟨fun first rest h => uploadFileToSider_of_fileInput env w first rest h, ?_⟩
  intro h0 h e he
  rw [uploadFileToSider_of_no_fileInput env w h0] at he
  simp only [events_after, List.singleton_append, List.mem_cons, reduceCtorEq, false_or] at he
  exact strategy2_click_visible env w h e he

/-- C1 (witness).  The amended statement at the hidden file input and at a
document without file input. -/
theorem clicks_outside_strategy1_are_visible_witness :
    (uploadFileToSider inertPage hiddenFileInputWorld).exit = Exit.fileInput ∧
    (∀ h e, Event.click h e ∈ (uploadFileToSider inertPage attachButtonWorld).events →
      e.offsetParent = true) := by
  refine ⟨?_, ?_⟩
  · rw [(clicks_outside_strategy1_are_visible inertPage hiddenFileInputWorld).1 0 [] (by decide)]
    decide
  · exact (clicks_outside_strategy1_are_visible inertPage attachButtonWorld).2 (by decide)

/-- C2 (counterexample).  With a visible button labelled `attach file` and a
textarea, on a page where clicks reveal nothing, the run returns `true` (from
strategy 4) after two `click()` calls: one in strategy 2, one in strategy 3. -/
theorem successful_run_with_two_clicks :
    (uploadFileToSider inertPage attachButtonWorld).result = true ∧
    (uploadFileToSider inertPage attachButtonWorld).clicks = 2 := by
  decide

/-- C2 (amended).  A run that returns from strategy 1 or from strategy 2 has made
exactly one `click()` call.  A run that reaches strategy 3 has made at most one
call before it and makes at most one per element of `allClickableElements`:
if the strategy-3 query found `n` elements the run has at most `1 + n`
clicks, and a run without that query has at most one. -/
theorem click_count_bound (env : Env) (w : World) :
    (((uploadFileToSider env w).exit = Exit.fileInput ∨
        (uploadFileToSider env w).exit = Exit.attachButton) →
      (uploadFileToSider env w).clicks = 1) ∧
    (∀ n, Event.query clickableSelector n ∈ (uploadFileToSider env w).events →
      (uploadFileToSider env w).clicks ≤ 1 + n) ∧
    ((∀ n, Event.query clickableSelector n ∉ (uploadFileToSider env w).events) →
      (uploadFileToSider env w).clicks ≤ 1) := by
  cases hq : querySelectorAll w fileInputSelector with
  | cons first rest =>
    rw [uploadFileToSider_of_fileInput env w first rest hq]
    refine ⟨fun _ => rfl, fun n _ => ?_, fun _ => le_refl _⟩
    show 1 ≤ 1 + n
    omega
  | nil =>
    rw [uploadFileToSider_of_no_fileInput env w hq]
    obtain ⟨h1, h2, h3, h4⟩ := strategy2_clicks env w
    have hc : ((strategy2 env w).after [Event.query fileInputSelector 0]).clicks
        = (strategy2 env w).clicks := by
      rw [clicks_after]
      simp [Event.isClick]
    rw [hc]
    refine ⟨?_, ?_, ?_⟩
    · rintro (hx | hx)
      · exact absurd hx h2
      · exact h1 hx
    · intro n hn
      simp only [events_after, List.singleton_append, List.mem_cons, Event.query.injEq] at hn
      rcases hn with hn | hn
      · exact absurd hn.1 clickableSelector_ne_fileInputSelector
      · exact h3 n hn
    · intro hno
      apply h4
      intro n hn
      exact hno n (by simp [hn])

/-- C2 (witness).  The bound at the run with two clicks, whose strategy-3 query
found one element. -/
theorem click_count_bound_witness :
    Event.query clickableSelector 1 ∈ (uploadFileToSider inertPage attachButtonWorld).events ∧
    (uploadFileToSider inertPage attachButtonWorld).clicks ≤ 1 + 1 :=
  ⟨by decide, (click_count_bound inertPage attachButtonWorld).2.1 1 (by decide)⟩

/-- C3 (counterexample).  On a page where `click()` throws, the document with
one file input: strategy 1 succeeds in finding the input (the first query
returns one element), its click throws, and the function returns `false` from
the outer `catch`, not `true`. -/
theorem strategy1_success_then_false :
    uploadFileToSider throwingPage visibleFileInputWorld =
      ⟨Exit.caught, [Event.query fileInputSelector 1,
        Event.click 0 (visibleFileInputWorld.elem 0)]⟩ ∧
    (Event.query fileInputSelector 1).success ∧
    (uploadFileToSider throwingPage visibleFileInputWorld).result = false :=
  ⟨by decide, Or.inl ⟨1, by decide, rfl⟩, by decide⟩

/-- C3 (amended).  The function short-circuits.  Whenever a query for
`input[type="file"]` finds an element, or strategy 4 highlights the chat input,
either that event is the last call of the run and the run returns `true`, or it
is the very first query (strategy 1), which is followed by the click on
`fileInputs[0]` and by nothing else, the run returning from strategy 1: `true`
unless that click throws, `false` from the outer `catch` if it does.  So no
query, click or highlight of a later strategy follows a success, and in
strategy 3 no candidate is clicked after one whose click produced a file input. -/
theorem uploadFileToSider_short_circuits (env : Env) (w : World) (pre : List Event)
    (e : Event) (post : List Event)
    (hsplit : (uploadFileToSider env w).events = pre ++ e :: post) (he : e.success) :
    (post = [] ∧ (uploadFileToSider env w).result = true) ∨
    (pre = [] ∧ ∃ first, post = [Event.click first (w.elem first)] ∧
      (uploadFileToSider env w).exit =
        if (env.click first w).threw then Exit.caught else Exit.fileInput) := by
  cases hq : querySelectorAll w fileInputSelector with
  | cons first rest =>
    right
    rw [uploadFileToSider_of_fileInput env w first rest hq] at hsplit ⊢
    simp only at hsplit
    cases pre with
    | nil =>
      simp only [List.nil_append, List.cons.injEq] at hsplit
      exact ⟨rfl, first, hsplit.2.symm, rfl⟩
    | cons a pre =>
      simp only [List.cons_append, List.cons.injEq] at hsplit
      cases pre with
      | nil =>
        simp only [List.nil_append, List.cons.injEq] at hsplit
        exact absurd he (hsplit.2.1 ▸ not_success_click _ _)
      | cons b pre => simp at hsplit
  | nil =>
    left
    rw [uploadFileToSider_of_no_fileInput env w hq] at hsplit ⊢
    have hstop : StopsAt Event.success (fun x => x = Exit.attachButton ∨ x = Exit.uploadIcon ∨
        x = Exit.dragAndDrop) ((strategy2 env w).after [Event.query fileInputSelector 0]) := by
      refine stopsAt_after ?_
        (strategy2_stopsAt _ (Or.inl rfl) (Or.inr (Or.inl rfl)) (Or.inr (Or.inr rfl)) env w)
      intro x hx
      simp only [List.mem_singleton] at hx
      subst hx
      exact not_success_query (Or.inr rfl)
    obtain ⟨hpost, hexit⟩ := hstop pre e post hsplit he
    refine ⟨hpost, ?_⟩
    unfold Run.result
    rcases hexit with hx | hx | hx <;> rw [hx]

/-- C3 (witness).  On a page where a click reveals a file input, the strategy-2
click is followed by the confirming query and by nothing else. -/
theorem uploadFileToSider_short_circuits_witness :
    (uploadFileToSider revealingPage attachButtonWorld).events =
      [Event.query fileInputSelector 0,
        Event.query [⟨none, [Simple.attrSub "aria-label" "attach"]⟩] 1,
        Event.click 0 (attachButtonWorld.elem 0), Event.wait 1000] ++
        Event.query fileInputSelector 1 :: [] ∧
    (uploadFileToSider revealingPage attachButtonWorld).result = true := by
  refine ⟨by decide, ?_⟩
  rcases uploadFileToSider_short_circuits revealingPage attachButtonWorld
      [Event.query fileInputSelector 0,
        Event.query [⟨none, [Simple.attrSub "aria-label" "attach"]⟩] 1,
        Event.click 0 (attachButtonWorld.elem 0), Event.wait 1000]
      (Event.query fileInputSelector 1) [] (by decide) (Or.inl ⟨1, by decide, rfl⟩)
    with h | h
  · exact h.2
  · exact absurd h.1 (by decide)

/-- C4 (failing input).  In a document with an `svg` element and a textarea the
function resolves to `false` although a text-entry target exists: strategy 3
throws on `element.className.toLowerCase()` for the `svg`, the outer `catch`
returns `false`, and strategy 4 is never reached: the strategy-3 query is the
last call of the run.  No click was made. -/
theorem svg_className_aborts_the_cascade :
    querySelector svgLogoWorld chatInputSelector = some 1 ∧
    uploadKeywordTest svgLogoWorld 0 = none ∧
    (uploadFileToSider inertPage svgLogoWorld).exit = Exit.caught ∧
    (uploadFileToSider inertPage svgLogoWorld).result = false ∧
    (uploadFileToSider inertPage svgLogoWorld).clicks = 0 ∧
    (uploadFileToSider inertPage svgLogoWorld).events.getLast? =
      some (Event.query clickableSelector 1) := by
  decide

/-- C5 (failing input).  With `<svg class="paperclip">` chosen as `attachButton`
and its `click()` throwing, the run ends in the outer `catch` right after the
click and resolves to `false`: strategies 3 and 4 are not tried although a
textarea is there for the fallback. -/
theorem throwing_click_in_strategy2_aborts :
    (findAttachButton paperclipSvgWorld attachmentSelectors).1 = some 0 ∧
    (svgClickThrows.click 0 paperclipSvgWorld).threw = true ∧
    querySelector paperclipSvgWorld chatInputSelector = some 1 ∧
    (uploadFileToSider svgClickThrows paperclipSvgWorld).exit = Exit.caught ∧
    (uploadFileToSider svgClickThrows paperclipSvgWorld).result = false ∧
    (uploadFileToSider svgClickThrows paperclipSvgWorld).events.getLast? =
      some (Event.click 0 (paperclipSvgWorld.elem 0)) := by
  decide

/-- C6 (counterexample).  With one visible file input the function returns
`true` from strategy 1 after one `click()` call, on that input. -/
theorem visible_file_input_is_clicked :
    (visibleFileInputWorld.elem 0).offsetParent = true ∧
    uploadFileToSider inertPage visibleFileInputWorld =
      ⟨Exit.fileInput, [Event.query fileInputSelector 1,
        Event.click 0 (visibleFileInputWorld.elem 0)]⟩ ∧
    (uploadFileToSider inertPage visibleFileInputWorld).clicks = 1 := by
  decide

/-- C6 (amended).  If the document contains a visible file input on entry, the
run is the query followed by exactly one `click()` call, on the first file input
of the document; no other element is clicked, and the function returns `true`
from strategy 1 unless that click throws. -/
theorem visible_file_input_one_click (env : Env) (w : World) (h : Handle)
    (hmem : h ∈ querySelectorAll w fileInputSelector)
    (_hvis : (w.elem h).offsetParent = true) :
    ∃ first, (querySelectorAll w fileInputSelector).head? = some first ∧
      (uploadFileToSider env w).events =
        [Event.query fileInputSelector (querySelectorAll w fileInputSelector).length,
          Event.click first (w.elem first)] ∧
      (uploadFileToSider env w).clicks = 1 ∧
      ((env.click first w).threw = false →
        (uploadFileToSider env w).exit = Exit.fileInput ∧
        (uploadFileToSider env w).result = true) := by
  cases hq : querySelectorAll w fileInputSelector with
  | nil => rw [hq] at hmem; simp at hmem
  | cons first rest =>
    rw [uploadFileToSider_of_fileInput env w first rest hq]
    refine ⟨first, by simp, by simp, by simp [Run.clicks, Event.isClick], ?_⟩
    intro ht
    simp [ht, Run.result]

/-- C6 (witness).  The amended statement at the document with one visible file input. -/
theorem visible_file_input_one_click_witness :
    0 ∈ querySelectorAll visibleFileInputWorld fileInputSelector ∧
    (visibleFileInputWorld.elem 0).offsetParent = true ∧
    ∃ first, (querySelectorAll visibleFileInputWorld fileInputSelector).head? = some first ∧
      (uploadFileToSider inertPage visibleFileInputWorld).events =
        [Event.query fileInputSelector
            (querySelectorAll visibleFileInputWorld fileInputSelector).length,
          Event.click first (visibleFileInputWorld.elem first)] ∧
      (uploadFileToSider inertPage visibleFileInputWorld).clicks = 1 ∧
      ((inertPage.click first visibleFileInputWorld).threw = false →
        (uploadFileToSider inertPage visibleFileInputWorld).exit = Exit.fileInput ∧
        (uploadFileToSider inertPage visibleFileInputWorld).result = true) :=
  ⟨by decide, by decide,
    visible_file_input_one_click inertPage visibleFileInputWorld 0 (by decide) (by decide)⟩

/-- C7 (counterexample).  `FILE` is the upper case of `fıle` (dotless i), yet
the strategy-3 test is `false` on `<i class="fıle">` and `true` on
`<i class="FILE">`: lower-casing sends `I` to the dotted `i` and leaves the
dotless one alone, so the matcher's value changes with the letter case. -/
theorem dotless_i_changes_the_match :
    List.Forall₂ (fun a b => isUpperCaseOf a b = true) "fıle".data "FILE".data ∧
    uploadKeywordTest dotlessFileWorld 0 = some false ∧
    uploadKeywordTest upperFileWorld 0 = some true := by
  decide

/-- C7 (amended).  The strategy-3 test lower-cases what it reads.  For an
element and a copy of it in which className, aria-label, title and the parent's
className differ only in the case of ASCII letters, the test gives the same
result.  For an element whose className and whose parent's className are
strings (a missing aria-label, title or parent counting as the empty string),
`hasUploadKeyword` is `true` exactly when one of the keywords is a substring of
one of the four lower-cased strings, and it is `false` when none is. -/
theorem uploadKeywordTest_ascii_case_insensitive (w w' : World) (h h' : Handle)
    (hclass : ClassName.CaseVariant (w.elem h).className (w'.elem h').className)
    (haria : CaseVariant (((w.elem h).getAttribute "aria-label").getD "")
      (((w'.elem h').getAttribute "aria-label").getD ""))
    (htitle : CaseVariant (((w.elem h).getAttribute "title").getD "")
      (((w'.elem h').getAttribute "title").getD ""))
    (hparent : ClassName.CaseVariant (parentClassName w (w.elem h))
      (parentClassName w' (w'.elem h'))) :
    uploadKeywordTest w' h' = uploadKeywordTest w h ∧
    (∀ c p, (w.elem h).className = ClassName.str c →
      parentClassName w (w.elem h) = ClassName.str p →
      (uploadKeywordTest w h = some true ↔
        ∃ kw ∈ uploadKeywords,
          kw.data <:+: (toLowerCase c).data ∨
          kw.data <:+: (toLowerCase (((w.elem h).getAttribute "aria-label").getD "")).data ∨
          kw.data <:+: (toLowerCase (((w.elem h).getAttribute "title").getD "")).data ∨
          kw.data <:+: (toLowerCase p).data) ∧
      ((∀ kw ∈ uploadKeywords,
          ¬ kw.data <:+: (toLowerCase c).data ∧
          ¬ kw.data <:+: (toLowerCase (((w.elem h).getAttribute "aria-label").getD "")).data ∧
          ¬ kw.data <:+: (toLowerCase (((w.elem h).getAttribute "title").getD "")).data ∧
          ¬ kw.data <:+: (toLowerCase p).data) →
        uploadKeywordTest w h = some false)) := by
  refine ⟨?_, ?_⟩
  · unfold uploadKeywordTest
    rw [parentClassLower_eq, parentClassLower_eq, className_lower_caseVariant hclass,
      className_lower_caseVariant hparent, attrLower_caseVariant haria,
      attrLower_caseVariant htitle]
  · intro c p hc hp
    rw [uploadKeywordTest_of_str hc hp]
    refine ⟨?_, ?_⟩
    · rw [Option.some.injEq, hasUploadKeyword_eq_true_iff]
      rfl
    · intro hno
      rw [Option.some.injEq, ← Bool.not_eq_true, hasUploadKeyword_eq_true_iff]
      rintro ⟨kw, hkw, h1 | h1 | h1 | h1⟩
      · exact (hno kw hkw).1 h1
      · exact (hno kw hkw).2.1 h1
      · exact (hno kw hkw).2.2.1 h1
      · exact (hno kw hkw).2.2.2 h1

/-- C7 (witness).  The button with class `BTN` and label `UPLOAD File` under a
`div` of class `Bar` is matched as the one with `btn`, `upload file` and `bar` is. -/
theorem uploadKeywordTest_ascii_case_insensitive_witness :
    ClassName.CaseVariant (lowerLabelWorld.elem 1).className (upperLabelWorld.elem 1).className ∧
    uploadKeywordTest lowerLabelWorld 1 = some true ∧
    uploadKeywordTest upperLabelWorld 1 = some true := by
  have hclass : ClassName.CaseVariant (lowerLabelWorld.elem 1).className
      (upperLabelWorld.elem 1).className := by
    show CaseVariant "btn" "BTN"
    unfold CaseVariant
    decide
  have haria : CaseVariant (((lowerLabelWorld.elem 1).getAttribute "aria-label").getD "")
      (((upperLabelWorld.elem 1).getAttribute "aria-label").getD "") := by
    unfold CaseVariant
    decide
  have htitle : CaseVariant (((lowerLabelWorld.elem 1).getAttribute "title").getD "")
      (((upperLabelWorld.elem 1).getAttribute "title").getD "") := by
    unfold CaseVariant
    decide
  have hparent : ClassName.CaseVariant (parentClassName lowerLabelWorld (lowerLabelWorld.elem 1))
      (parentClassName upperLabelWorld (upperLabelWorld.elem 1)) := by
    show CaseVariant "bar" "Bar"
    unfold CaseVariant
    decide
  have hlow : uploadKeywordTest lowerLabelWorld 1 = some true := by decide
  exact ⟨hclass, hlow,
    (uploadKeywordTest_ascii_case_insensitive lowerLabelWorld upperLabelWorld 1 1
      hclass haria htitle hparent).1.trans hlow⟩

/-- C8 (counterexample).  A disabled button is accepted as the strategy-2
`attachButton`, and `analyzeSiderPage` records a hidden file input in
`fileUploadElements` (twice: under `input[type="file"]` and under
`*[class*="file"]`).  In the document that has the disabled button alone the
run clicks it in strategy 2 and again in strategy 3. -/
theorem disabled_and_hidden_candidates_accepted :
    (findAttachButton disabledButtonWorld attachmentSelectors).1 = some 0 ∧
    (disabledButtonWorld.elem 0).disabled = true ∧
    (analyzeSiderPage disabledButtonWorld).map
        (fun rep => rep.fileUploadElements.map (fun f => f.element)) = some [1, 1] ∧
    (disabledButtonWorld.elem 1).offsetParent = false ∧
    (disabledButtonOnlyWorld.elem 0).disabled = true ∧
    (uploadFileToSider inertPage disabledButtonOnlyWorld).events.filter Event.isClick =
      [Event.click 0 (disabledButtonOnlyWorld.elem 0),
        Event.click 0 (disabledButtonOnlyWorld.elem 0)] := by
  decide

/-- C8 (amended).  The test applied to candidates is `offsetParent !== null`
alone.  The element accepted as the strategy-2 `attachButton`, every element
clicked in strategy 3 and every element recorded in `attachmentIcons` has a
layout box; an element recorded in `fileUploadElements` has a layout box or has
`type === 'file'`. -/
theorem accepted_candidates_have_layout_box (env : Env) (w : World) :
    (∀ h, (findAttachButton w attachmentSelectors).1 = some h →
      (w.elem h).offsetParent = true) ∧
    (∀ h e, Event.click h e ∈ (strategy3 env w).events → e.offsetParent = true) ∧
    (∀ rep, analyzeSiderPage w = some rep →
      (∀ f ∈ rep.fileUploadElements,
        (w.elem f.element).offsetParent = true ∨ (w.elem f.element).type = some "file") ∧
      (∀ icon ∈ rep.attachmentIcons,
        ∃ h, (querySelectorAll w iconSelector)[icon.index]? = some h ∧
          (w.elem h).offsetParent = true)) := by
  refine ⟨fun h hf => findAttachButton_visible w _ h hf, strategy3_click_visible env w, ?_⟩
  intro rep hrep
  unfold analyzeSiderPage at hrep
  dsimp only at hrep
  split at hrep
  · simp at hrep
  · next icons hicons =>
    simp only [Option.some.injEq] at hrep
    subst hrep
    refine ⟨?_, ?_⟩
    · intro f hf
      simp only [List.mem_flatMap] at hf
      obtain ⟨sel, _, hf⟩ := hf
      exact (foundBySelector_visible_or_file w sel f hf).2
    · intro icon hi
      obtain ⟨h, _, hget, _, hv⟩ := collectIcons_visible w _ 0 icons hicons icon hi
      exact ⟨h, by simpa using hget, hv⟩

/-- C8 (witness).  The amended statement at a document whose report is produced. -/
theorem accepted_candidates_have_layout_box_witness :
    (findAttachButton attachButtonWorld attachmentSelectors).1 = some 0 ∧
    (attachButtonWorld.elem 0).offsetParent = true ∧
    (analyzeSiderPage disabledButtonWorld).isSome = true ∧
    (∀ rep, analyzeSiderPage disabledButtonWorld = some rep →
      ∀ f ∈ rep.fileUploadElements,
        (disabledButtonWorld.elem f.element).offsetParent = true ∨
          (disabledButtonWorld.elem f.element).type = some "file") :=
  ⟨by decide,
    (accepted_candidates_have_layout_box inertPage attachButtonWorld).1 0 (by decide),
    by decide,
    fun rep hrep =>
      ((accepted_candidates_have_layout_box inertPage disabledButtonWorld).2.2 rep hrep).1⟩

/-- C9 (counterexample).  The two matchers differ.  On `<i class="icon paper-plane">`
in a toolbar the analysis matcher is `true` (keyword `paper`) and the upload
matcher `false`; on `<i class="icon plus">` inside `<div class="upload-zone">` the
upload matcher is `true` (parent className) and the analysis matcher `false`. -/
theorem keyword_matchers_differ :
    attachmentKeywordTest paperPlaneWorld 1 = some true ∧
    uploadKeywordTest paperPlaneWorld 1 = some false ∧
    attachmentKeywordTest uploadZoneWorld 1 = some false ∧
    uploadKeywordTest uploadZoneWorld 1 = some true := by
  decide

/-- C9 (amended).  `hasAttachmentKeyword` tests the keywords attach, clip,
upload, file, document and paper on className, aria-label and title;
`hasUploadKeyword` tests upload, attach, file, clip and document on those and on
the parent's className.  The two return the same boolean for every element
such that `paper` occurs in none of its lower-cased className, aria-label and
title and no upload keyword occurs in the lower-cased className of its parent
(a string, or missing). -/
theorem keyword_matchers_agree (w : World) (h : Handle) (p : String)
    (hparent : parentClassLower w (w.elem h) = some p)
    (hp : ∀ kw ∈ uploadKeywords, includes p kw = false)
    (hpaper : ∀ c, (w.elem h).className.lower = some c → includes c "paper" = false)
    (ha : includes (attrLower (w.elem h) "aria-label") "paper" = false)
    (ht : includes (attrLower (w.elem h) "title") "paper" = false) :
    uploadKeywordTest w h = attachmentKeywordTest w h := by
  unfold uploadKeywordTest attachmentKeywordTest
  rw [hparent]
  cases hc : (w.elem h).className.lower with
  | none => rfl
  | some c =>
    have hpc := hpaper c hc
    have h1 := hp "upload" (by simp [uploadKeywords])
    have h2 := hp "attach" (by simp [uploadKeywords])
    have h3 := hp "file" (by simp [uploadKeywords])
    have h4 := hp "clip" (by simp [uploadKeywords])
    have h5 := hp "document" (by simp [uploadKeywords])
    simp only [hasUploadKeyword, hasAttachmentKeyword, uploadKeywords, attachmentKeywords,
      List.any_cons, List.any_nil, h1, h2, h3, h4, h5, hpc, ha, ht, Bool.or_false,
      Option.some.injEq]
    ac_rfl

/-- C9 (witness).  The two matchers agree on `<i class="icon send" title="Send">`
in a toolbar. -/
theorem keyword_matchers_agree_witness :
    parentClassLower sendIconWorld (sendIconWorld.elem 1) = some "toolbar" ∧
    uploadKeywordTest sendIconWorld 1 = attachmentKeywordTest sendIconWorld 1 :=
  ⟨by decide, keyword_matchers_agree sendIconWorld 1 "toolbar" (by decide) (by decide)
    (by decide) (by decide) (by decide)⟩

/-- C10 (counterexample).  The button comes first in document order, is visible
and matches `button[class*="attach"]`, yet the `div` after it is chosen: its
selector `[aria-label*="attach"]` is tried first. -/
theorem attachButton_not_first_in_document_order :
    docOrderWorld.order = [0, 1] ∧
    (docOrderWorld.elem 0).offsetParent = true ∧
    [⟨some "button", [Simple.attrSub "class" "attach"]⟩] ∈ attachmentSelectors ∧
    0 ∈ querySelectorAll docOrderWorld [⟨some "button", [Simple.attrSub "class" "attach"]⟩] ∧
    (findAttachButton docOrderWorld attachmentSelectors).1 = some 1 := by
  decide

/-- C10 (amended).  `attachButton` is the first visible element, in document
order, among the matches of the first selector of `attachmentSelectors` (in
array order) that has a visible match.  It stays `null` exactly when no element
matching any of the ten selectors is visible, and then strategy 2 makes no
click and goes on to strategy 3. -/
theorem attachButton_first_visible_of_first_selector (env : Env) (w : World) :
    ((findAttachButton w attachmentSelectors).1 = none ↔
      ∀ sel ∈ attachmentSelectors, ∀ h ∈ querySelectorAll w sel,
        (w.elem h).offsetParent = false) ∧
    ((findAttachButton w attachmentSelectors).1 = none →
      strategy2 env w = (strategy3 env w).after (findAttachButton w attachmentSelectors).2 ∧
      (findAttachButton w attachmentSelectors).2.countP Event.isClick = 0) ∧
    (∀ h, (findAttachButton w attachmentSelectors).1 = some h →
      ∃ pre sel post, attachmentSelectors = pre ++ sel :: post ∧
        (∀ s ∈ pre, ∀ x ∈ querySelectorAll w s, (w.elem x).offsetParent = false) ∧
        ∃ before later, querySelectorAll w sel = before ++ h :: later ∧
          (∀ x ∈ before, (w.elem x).offsetParent = false) ∧
          (w.elem h).offsetParent = true) := by
  refine ⟨findAttachButton_none w _, ?_, ?_⟩
  · intro hnone
    refine ⟨?_, findAttachButton_no_click w _⟩
    rcases strategy2_cases env w with ⟨b, hb, _⟩ | ⟨b, n, hb, _⟩ | ⟨b, hb, _⟩ | ⟨_, heq⟩
    · rw [hnone] at hb; simp at hb
    · rw [hnone] at hb; simp at hb
    · rw [hnone] at hb; simp at hb
    · exact heq
  · intro h hf
    obtain ⟨pre, sel, post, hsplit, hpre, hfind⟩ := findAttachButton_some w _ h hf
    refine ⟨pre, sel, post, hsplit, hpre, ?_⟩
    obtain ⟨hv, before, later, hl, hb⟩ := List.find?_eq_some.1 hfind
    refine ⟨before, later, hl, ?_, hv⟩
    intro x hx
    simpa using hb x hx

/-- C10 (witness).  In the two-element document the chosen `div` is the first
visible match of the first selector. -/
theorem attachButton_first_visible_of_first_selector_witness :
    (findAttachButton docOrderWorld attachmentSelectors).1 = some 1 ∧
    ∃ pre sel post, attachmentSelectors = pre ++ sel :: post ∧
      (∀ s ∈ pre, ∀ x ∈ querySelectorAll docOrderWorld s,
        (docOrderWorld.elem x).offsetParent = false) ∧
      ∃ before later, querySelectorAll docOrderWorld sel = before ++ 1 :: later ∧
        (∀ x ∈ before, (docOrderWorld.elem x).offsetParent = false) ∧
        (docOrderWorld.elem 1).offsetParent = true :=
  ⟨by decide,
    (attachButton_first_visible_of_first_selector inertPage docOrderWorld).2.2 1 (by decide)⟩

end Sider
